import Mathlib

/-!
# Verification of the InsightClass management-console core

A shallow embedding, in Lean 4, of the core logic of the InsightClass
frontend: the feedback analytics aggregation (`useGestorOverview` in the
gestor overview hook), the derived rankings, the session token lifecycle
(`auth.ts`), the authenticated fetch wrapper with its single 401 retry
(`api.ts`), the cascading registration form (`UserRegistrationCard`),
the assignment editor's eligible-teacher computation
(`ClassroomAssignmentsPanel`), and the manual-report guard
(`handleReportFeedback`).

Machine integers do not arise: all counters are unbounded JS numbers used
as naturals, modelled by `Nat`.  JS `Map` is modelled as an association
list with unique keys kept in insertion order, matching `Map.set`
semantics (new keys appended, existing keys updated in place).
-/

namespace InsightClass

/-- The four directory roles of the platform (`AdminRole` in `lib/types`). -/
inductive AdminRole where
  | admin
  | gestor
  | professor
  | aluno
deriving DecidableEq, Repr

/-- The three feedback target kinds (`target_type` of a feedback record). -/
inductive TargetType where
  | user
  | classroom
  | subject
deriving DecidableEq, Repr

/-- A feedback event as consumed by the gestor overview hook
(`FeedbackPublic` in `lib/types`): sender identity and directory fields,
target kind and identity, the externally assigned sentiment label (absent
when unscored) and the trigger flag.  Identifier fields are the opaque id
strings of the JSON payload. -/
structure FeedbackEvent where
  sender_id : String
  sender_name : Option String := none
  sender_role : Option AdminRole := none
  sender_email : Option String := none
  target_type : TargetType
  target_id : String
  target_name : Option String := none
  target_role : Option AdminRole := none
  target_email : Option String := none
  sentiment_label : Option String := none
  has_trigger : Bool := false
deriving DecidableEq, Repr

/-- JS string truthiness for an optional string: `undefined`, `null` and
the empty string are falsy. -/
def jsTruthy : Option String → Bool
  | none => false
  | some s => decide (s ≠ "")

/-- Character-wise ASCII lower-casing (the effect of JS `toLowerCase` on
the label strings concerned). -/
def toLowerStr (s : String) : String :=
  String.mk (s.data.map Char.toLower)

/-- `(feedback.sentiment_label || 'neutro').toLowerCase()`: the label with
the JS falsy fallback to `'neutro'`, lower-cased. -/
def normLabel (label : Option String) : String :=
  match label with
  | none => "neutro"
  | some s => if s = "" then "neutro" else toLowerStr s

/-- Per-person aggregate built by the reduction in `useGestorOverview`
(`UserAggregate` in the hook). -/
structure UserAggregate where
  id : String
  name : String
  role : Option AdminRole
  email : Option String
  sent : Nat
  received : Nat
  positiveReceived : Nat
  negativeReceived : Nat
  neutralReceived : Nat
deriving DecidableEq, Repr

/-- The fallback display name used when a user entry is synthesized
without a (truthy) name: `name || \x60Usuário #${id.slice(0, 6)}\x60`. -/
def nameOr (id : String) (name : Option String) : String :=
  match name with
  | none => "Usuário #" ++ id.take 6
  | some s => if s = "" then "Usuário #" ++ id.take 6 else s

/-- Fresh aggregate entry created by `ensureUser` for an unseen id. -/
def freshUA (id : String) (name : Option String) (role : Option AdminRole)
    (email : Option String) : UserAggregate :=
  { id := id
    name := nameOr id name
    role := role
    email := email
    sent := 0
    received := 0
    positiveReceived := 0
    negativeReceived := 0
    neutralReceived := 0 }

/-- The enrichment half of `ensureUser`: for an existing entry, each of
name/role/email is filled in only when the stored field is falsy and the
incoming one truthy (`if (!entry.name && name) entry.name = name` and the
two analogous lines). -/
def enrichUA (u : UserAggregate) (name : Option String) (role : Option AdminRole)
    (email : Option String) : UserAggregate :=
  { u with
    name := if u.name = "" ∧ jsTruthy name then name.getD u.name else u.name
    role := match u.role with
      | none => role
      | some r => some r
    email := if ¬ jsTruthy u.email ∧ jsTruthy email then email else u.email }

/-- The user map of the reduction: a JS `Map` keyed by id, in insertion
order. -/
abbrev UserMap := List (String × UserAggregate)

/-- First-match association lookup (`userMap.get(id)`). -/
def entry? : UserMap → String → Option UserAggregate
  | [], _ => none
  | (k, v) :: rest, uid => if k = uid then some v else entry? rest uid

/-- Rewrite the entry stored under `id` in place (the mutation performed
on the object returned by `ensureUser`). -/
def overwrite (m : UserMap) (id : String) (g : UserAggregate → UserAggregate) : UserMap :=
  m.map fun p => if p.1 = id then (p.1, g p.2) else p

/-- `ensureUser` followed by a field mutation `f` on the returned entry:
if the id is absent a fresh entry is appended (`userMap.set`), otherwise
the stored entry is enriched; `f` is then applied to it. -/
def touch (m : UserMap) (id : String) (name : Option String) (role : Option AdminRole)
    (email : Option String) (f : UserAggregate → UserAggregate) : UserMap :=
  match entry? m id with
  | none => m ++ [(id, f (freshUA id name role email))]
  | some _ => overwrite m id fun u => f (enrichUA u name role email)

/-- `sender.sent += 1`. -/
def bumpSent (u : UserAggregate) : UserAggregate :=
  { u with sent := u.sent + 1 }

/-- `target.received += 1` followed by the three-way sentiment bucket
increment on the normalized label. -/
def bumpReceived (u : UserAggregate) (label : String) : UserAggregate :=
  let u := { u with received := u.received + 1 }
  if label = "positivo" then { u with positiveReceived := u.positiveReceived + 1 }
  else if label = "negativo" then { u with negativeReceived := u.negativeReceived + 1 }
  else { u with neutralReceived := u.neutralReceived + 1 }

/-- One step of the reduction in `useGestorOverview`: bump the sender's
`sent`; when the target is a user, bump the target's `received` and the
sentiment bucket selected by the normalized label. -/
def processEvent (m : UserMap) (e : FeedbackEvent) : UserMap :=
  let m1 := touch m e.sender_id e.sender_name e.sender_role e.sender_email bumpSent
  if e.target_type = TargetType.user then
    touch m1 e.target_id e.target_name e.target_role e.target_email
      (fun u => bumpReceived u (normLabel e.sentiment_label))
  else m1

/-- The full reduction: `feedbacks.forEach(...)` over an initially empty
user map. -/
def aggregateMap (events : List FeedbackEvent) : UserMap :=
  events.foldl processEvent []

/-- `Array.from(userMap.values())`. -/
def toArray (m : UserMap) : List UserAggregate :=
  m.map (·.2)

/-- `sent` of the entry stored for `uid` (0 when the id has no entry). -/
def sentOf (m : UserMap) (uid : String) : Nat :=
  ((entry? m uid).map (·.sent)).getD 0

/-- `received` of the entry stored for `uid` (0 when absent). -/
def receivedOf (m : UserMap) (uid : String) : Nat :=
  ((entry? m uid).map (·.received)).getD 0

/-- `positiveReceived` of the entry stored for `uid` (0 when absent). -/
def posOf (m : UserMap) (uid : String) : Nat :=
  ((entry? m uid).map (·.positiveReceived)).getD 0

/-- `negativeReceived` of the entry stored for `uid` (0 when absent). -/
def negOf (m : UserMap) (uid : String) : Nat :=
  ((entry? m uid).map (·.negativeReceived)).getD 0

/-- `neutralReceived` of the entry stored for `uid` (0 when absent). -/
def neuOf (m : UserMap) (uid : String) : Nat :=
  ((entry? m uid).map (·.neutralReceived)).getD 0

/-- The global summary accumulator of the `stats` memo. -/
structure Stats where
  total : Nat
  positivo : Nat
  neutro : Nat
  negativo : Nat
  triggers : Nat
deriving DecidableEq, Repr

/-- One `forEach` step of the `stats` memo: bucket the normalized label
(recognized labels into their own bucket, everything else into `neutro`)
and count the trigger flag. -/
def statsStep (acc : Stats) (e : FeedbackEvent) : Stats :=
  let label := normLabel e.sentiment_label
  let acc1 :=
    if label = "positivo" then { acc with positivo := acc.positivo + 1 }
    else if label = "neutro" then { acc with neutro := acc.neutro + 1 }
    else if label = "negativo" then { acc with negativo := acc.negativo + 1 }
    else { acc with neutro := acc.neutro + 1 }
  if e.has_trigger then { acc1 with triggers := acc1.triggers + 1 } else acc1

/-- The `stats` memo of `useGestorOverview`: `total` is the list length,
set up front; the buckets are accumulated in a single pass. -/
def stats (events : List FeedbackEvent) : Stats :=
  events.foldl statsStep { total := events.length, positivo := 0, neutro := 0, negativo := 0, triggers := 0 }

/-- The `sortBy` helper of the analytics memo: filter (the optional
`filterFn`, `true` when omitted), stable-sort descending by the accessor
(`.sort((a, b) => accessor(b) - accessor(a))`, which JS performs stably),
and `slice(0, 5)`.  The stable descending sort is modelled by
`List.insertionSort` with the total relation `accessor b ≤ accessor a`,
which is the unique stable sort by that key. -/
def sortBy (accessor : UserAggregate → Nat) (filterFn : UserAggregate → Bool)
    (l : List UserAggregate) : List UserAggregate :=
  (((l.filter filterFn).insertionSort fun a b => accessor b ≤ accessor a).take 5)

/-- The seven ranked views derived from the per-person aggregates
(`GestorAnalytics` in the hook). -/
structure GestorAnalytics where
  topSenders : List UserAggregate
  topRecipients : List UserAggregate
  praisedStudents : List UserAggregate
  praisedTeachers : List UserAggregate
  pressuredStudents : List UserAggregate
  pressuredTeachers : List UserAggregate
  professorSentiments : List UserAggregate
deriving Repr

/-- The `analytics` object of the memo, over `Array.from(userMap.values())`:
the two unfiltered rankings drop zero-metric entries after the
sort-and-slice, the five role-filtered rankings pass their filter to
`sortBy` (so it applies before the sort-and-slice). -/
def analytics (arr : List UserAggregate) : GestorAnalytics :=
  { topSenders := (sortBy (·.sent) (fun _ => true) arr).filter fun i => decide (0 < i.sent)
    topRecipients := (sortBy (·.received) (fun _ => true) arr).filter fun i => decide (0 < i.received)
    praisedStudents := sortBy (·.positiveReceived)
      (fun i => decide (i.role = some AdminRole.aluno) && decide (0 < i.positiveReceived)) arr
    praisedTeachers := sortBy (·.positiveReceived)
      (fun i => decide (i.role = some AdminRole.professor) && decide (0 < i.positiveReceived)) arr
    pressuredStudents := sortBy (·.negativeReceived)
      (fun i => decide (i.role = some AdminRole.aluno) && decide (0 < i.negativeReceived)) arr
    pressuredTeachers := sortBy (·.negativeReceived)
      (fun i => decide (i.role = some AdminRole.professor) && decide (0 < i.negativeReceived)) arr
    professorSentiments := sortBy (·.received)
      (fun i => decide (i.role = some AdminRole.professor) && decide (0 < i.received)) arr }

/-- An access token as the session manager sees it: the decoded `exp`
claim, or `none` when the token does not decode to a payload with a
truthy `exp` (the `decodeToken`/`!payload?.exp` path of `auth.ts`;
`exp = 0` is falsy in JS but is also below every `now + skew`, so both
collapse onto the expired case). -/
structure Token where
  exp? : Option Nat
deriving DecidableEq, Repr

/-- `isTokenExpired` of `auth.ts`: `true` when the token has no decodable
truthy `exp`, otherwise `exp <= now + skewSeconds`. -/
def isTokenExpired (t : Token) (skewSeconds now : Nat) : Bool :=
  match t.exp? with
  | none => true
  | some e => decide (e ≤ now + skewSeconds)

/-- `ensureValidAccessToken` of `auth.ts` as a function of the stored
token and of the outcome the refresh endpoint would produce: absent when
nothing is stored; the stored token unchanged when it is not expired;
otherwise the refresh outcome (absent on refresh failure). -/
def ensureValidAccessToken (stored : Option Token) (refreshResult : Option Token)
    (skewSeconds now : Nat) : Option Token :=
  match stored with
  | none => none
  | some t => if isTokenExpired t skewSeconds now then refreshResult else some t

/-! ### The authenticated fetch wrapper (`authFetch` in `api.ts`)

The network is modelled by an environment giving the status and body of
the `k`-th fetch performed and the outcome of the `k`-th refresh call
performed; the mutable session storage and the call counters are threaded
as explicit state. -/

/-- The structured part of an error response body that
`parseErrorMessage` inspects: a string `detail`, or a `detail` array
whose first element has a string `msg`.  `none` covers a body that is not
JSON or whose `detail` has neither shape (both fall through to the raw
text). -/
inductive ErrDetail where
  | str (d : String)
  | arrMsg (m : String)
deriving DecidableEq, Repr

/-- `parseErrorMessage` of `api.ts`: prefer the structured `detail`
(returned even when empty), else the raw body text, else the generic
failure message. -/
def parseErrorMessage (raw : String) (parsed : Option ErrDetail) : String :=
  if raw = "" then "Não foi possível completar a operação."
  else
    match parsed with
    | some (ErrDetail.str d) => d
    | some (ErrDetail.arrMsg m) => m
    | none => raw

/-- The message attached to the error thrown by `authFetch` for a
non-401/403 failure response:
`detail || (status === 409 ? conflito : genérica)`. -/
def errorMessage (status : Nat) (raw : String) (parsed : Option ErrDetail) : String :=
  let detail := parseErrorMessage raw parsed
  if detail = "" then
    if status = 409 then "Não é possível concluir: existem vínculos dependentes."
    else "Não foi possível completar a operação."
  else detail

/-- The network environment of one `authFetch` run. -/
structure Env where
  responses : Nat → Nat
  bodies : Nat → String × Option ErrDetail
  refreshes : Nat → Option Token
  skewSeconds : Nat
  now : Nat

/-- The session-storage and instrumentation state threaded through a run:
the stored token, and how many fetches, refresh calls (of any origin) and
401-handler refresh calls have been performed. -/
structure St where
  stored : Option Token
  fetchCount : Nat
  refreshCount : Nat
  retryRefreshCount : Nat
deriving DecidableEq, Repr

/-- `refreshToken` of `auth.ts`: performs the next refresh network call;
on success the new token is saved, on failure the storage is untouched. -/
def doRefresh (env : Env) (st : St) : Option Token × St :=
  let r := env.refreshes st.refreshCount
  (r, { st with
        refreshCount := st.refreshCount + 1
        stored := match r with
          | some t => some t
          | none => st.stored })

/-- `ensureValidAccessToken` against the threaded storage: the stored
token when present and unexpired, otherwise one refresh call. -/
def ensureValidM (env : Env) (st : St) : Option Token × St :=
  match st.stored with
  | none => (none, st)
  | some t =>
    if isTokenExpired t env.skewSeconds env.now then doRefresh env st
    else (some t, st)

/-- `refreshAccessToken` of `auth.ts`: absent without a stored token,
otherwise one refresh call. -/
def refreshAccessTokenM (env : Env) (st : St) : Option Token × St :=
  match st.stored with
  | none => (none, st)
  | some _ => doRefresh env st

/-- Perform the next fetch of the run, returning its status code. -/
def doFetch (env : Env) (st : St) : Nat × St :=
  (env.responses st.fetchCount, { st with fetchCount := st.fetchCount + 1 })

/-- The session-expired error thrown by `authFetch`. -/
def sessionExpiredMsg : String := "Sessão expirada. Faça login novamente."

/-- The 403 error thrown by `authFetch`. -/
def forbiddenMsg : String := "Você não possui permissão para esta ação."

/-- `authFetch` with an explicit retry budget (`retryOn401 = true` is
budget 1, the replay runs with budget 0): obtain a valid token or fail
with the session-expired error after clearing storage; dispatch; on 401
spend the budget on one `refreshAccessToken` and, when it yields a token,
replay, otherwise (or with no budget left) clear storage and fail as
session-expired; 403 and other non-2xx statuses map to their messages. -/
def authFetchAux (env : Env) : Nat → St → Except String Unit × St
  | retries, st =>
    match ensureValidM env st with
    | (none, st1) => (Except.error sessionExpiredMsg, { st1 with stored := none })
    | (some _, st1) =>
      let body := env.bodies st1.fetchCount
      let (s, st2) := doFetch env st1
      if s = 401 then
        match retries with
        | 0 => (Except.error sessionExpiredMsg, { st2 with stored := none })
        | n + 1 =>
          let (r, st3) := refreshAccessTokenM env st2
          let st4 := { st3 with retryRefreshCount := st3.retryRefreshCount + 1 }
          match r with
          | some _ => authFetchAux env n st4
          | none => (Except.error sessionExpiredMsg, { st4 with stored := none })
      else if s = 403 then (Except.error forbiddenMsg, st2)
      else if 200 ≤ s ∧ s < 300 then (Except.ok (), st2)
      else (Except.error (errorMessage s body.1 body.2), st2)

/-- `authFetch` as called by the API helpers (`retryOn401` defaulted to
`true`). -/
def authFetchM (env : Env) (st : St) : Except String Unit × St :=
  authFetchAux env 1 st

/-! ### The registration form (`UserRegistrationCard.tsx`)

Select values are the numeric ids of the chosen entities; the empty
selection (`''`) is `none`. -/

/-- A subject of the catalog (`Subject` in `lib/types`). -/
structure Subject where
  id : Nat
  school_id : Nat
  name : String
deriving DecidableEq, Repr

/-- A classroom of the catalog (`Classroom` in `lib/types`). -/
structure Classroom where
  id : Nat
  school_id : Nat
  name : String
  subject_ids : List Nat
deriving DecidableEq, Repr

/-- The person-edit form state (`UserFormState`), restricted to the
fields the institution cascade touches. -/
structure UserFormState where
  full_name : String
  email : String
  password : String
  role : Option AdminRole
  school_id : Option Nat
  classroom_id : Option Nat
  teachable_subject_ids : List Nat
deriving DecidableEq, Repr

/-- The `onChange` handler of the institution select:
`onChange({ school_id: event.target.value, classroom_id: '', teachable_subject_ids: [] })`. -/
def handleSchoolChange (form : UserFormState) (value : Option Nat) : UserFormState :=
  { form with school_id := value, classroom_id := none, teachable_subject_ids := [] }

/-- The subject options offered: `subjects.filter((subject) =>
!form.school_id || subject.school_id === Number(form.school_id))`. -/
def filteredSubjects (form : UserFormState) (subjects : List Subject) : List Subject :=
  subjects.filter fun subject =>
    match form.school_id with
    | none => true
    | some sid => decide (subject.school_id = sid)

/-- The classroom options offered, filtered the same way. -/
def filteredClassrooms (form : UserFormState) (classrooms : List Classroom) : List Classroom :=
  classrooms.filter fun classroom =>
    match form.school_id with
    | none => true
    | some sid => decide (classroom.school_id = sid)

/-! ### The assignment editor (`ClassroomAssignmentsPanel.tsx`) -/

/-- A directory user as the assignment editor sees it (`DirectoryUser`). -/
structure DirectoryUser where
  id : String
  full_name : String
  role : AdminRole
  school_id : Option Nat
  teachable_subject_ids : List Nat
deriving DecidableEq, Repr

/-- The `eligibleTeachersBySubject` memo looked up at `subjectId`: for a
subject present in the catalog, the teachers whose
`teachable_subject_ids` contain it; for an id with no map entry the page
falls back to `[]` (`eligibleTeachersBySubject[subjectId] || []`). -/
def eligibleTeachersBySubject (subjects : List Subject) (teachers : List DirectoryUser)
    (subjectId : Nat) : List DirectoryUser :=
  if subjects.any fun s => decide (s.id = subjectId) then
    teachers.filter fun teacher => teacher.teachable_subject_ids.contains subjectId
  else []

/-- The `teacherList` of one table row: the eligible teachers of the
subject, restricted to the selected classroom's institution
(`teacher.school_id === selectedClassroom.school_id`, strict equality, so
a teacher with no institution never matches). -/
def teacherList (subjects : List Subject) (teachers : List DirectoryUser)
    (classroom : Classroom) (subjectId : Nat) : List DirectoryUser :=
  (eligibleTeachersBySubject subjects teachers subjectId).filter fun teacher =>
    decide (teacher.school_id = some classroom.school_id)

/-- Whether the row renders the teacher select
(`teacherList.length === 0` renders the warning instead). -/
def teacherSelectRendered (subjects : List Subject) (teachers : List DirectoryUser)
    (classroom : Classroom) (subjectId : Nat) : Bool :=
  decide ((teacherList subjects teachers classroom subjectId).length ≠ 0)

/-- The values offered by the rendered teacher select: the empty choice
(`Sem responsável`) plus one option per teacher of `teacherList`. -/
def teacherOptions (subjects : List Subject) (teachers : List DirectoryUser)
    (classroom : Classroom) (subjectId : Nat) : List (Option String) :=
  none :: (teacherList subjects teachers classroom subjectId).map fun teacher => some teacher.id

/-! ### The manual-report guard (`handleReportFeedback` in the professor
page) -/

/-- Whitespace trimming at both ends of the reason text (JS
`reason.trim()`), character-wise over the string's data. -/
def trimStr (s : String) : String :=
  String.mk (((s.data.dropWhile Char.isWhitespace).reverse.dropWhile
    Char.isWhitespace).reverse)

/-- `handleReportFeedback` up to the remote call: given the target
event's trigger flag and the prompt outcome (`none` when cancelled),
returns whether `reportFeedback` is attempted and the status message set
before any remote activity (`none` when the handler returns silently). -/
def handleReportFeedback (has_trigger : Bool) (promptResult : Option String) :
    Bool × Option String :=
  if has_trigger then (false, some "Este feedback já está em análise.")
  else
    match promptResult with
    | none => (false, none)
    | some reason =>
      let trimmed := trimStr reason
      if trimmed.length < 5 then (false, some "Explique o motivo em pelo menos 5 caracteres.")
      else (true, some "Enviando alerta para a gestão...")

/-! ### Mentions: the directory information flowing into `ensureUser`

Each event hands `ensureUser` the sender's name/role/email, and, for a
user target, the target's; an id's entry is created at its first mention
and enriched at the later ones.  The projection of the map onto one id's
(name, role, email) is characterized below as a fold over that id's
mention list. -/

/-- The directory fields of one `ensureUser` call. -/
structure Mention where
  name? : Option String
  role? : Option AdminRole
  email? : Option String
deriving DecidableEq, Repr

/-- The `ensureUser` calls an event makes for `uid`: one for the sender
when `uid` sends, then one for the target when the target is the user
`uid`. -/
def eventMentions (uid : String) (e : FeedbackEvent) : List Mention :=
  (if e.sender_id = uid then [⟨e.sender_name, e.sender_role, e.sender_email⟩] else [])
    ++ (if e.target_type = TargetType.user ∧ e.target_id = uid then
          [⟨e.target_name, e.target_role, e.target_email⟩] else [])

/-- All `ensureUser` calls the event list makes for `uid`, in order. -/
def mentionsOf (uid : String) (events : List FeedbackEvent) : List Mention :=
  events.flatMap (eventMentions uid)

/-- The (name, role, email) slice of an aggregate entry. -/
structure Info where
  name : String
  role : Option AdminRole
  email : Option String
deriving DecidableEq, Repr

/-- The effect of one `ensureUser` call on the (name, role, email) slice
of `uid`'s entry: creation with the fallback name on the first call,
falsy-guarded enrichment on the later ones. -/
def infoStep (uid : String) (c : Option Info) (mn : Mention) : Info :=
  match c with
  | none => ⟨nameOr uid mn.name?, mn.role?, mn.email?⟩
  | some i =>
    { name := if i.name = "" ∧ jsTruthy mn.name? then mn.name?.getD i.name else i.name
      role := match i.role with
        | none => mn.role?
        | some r => some r
      email := if ¬ jsTruthy i.email ∧ jsTruthy mn.email? then mn.email? else i.email }

/-- The (name, role, email) slice of the entry stored for `uid`. -/
def infoOf (m : UserMap) (uid : String) : Option Info :=
  (entry? m uid).map fun u => ⟨u.name, u.role, u.email⟩

/-- Fold `infoStep` over a mention list. -/
def infoFold (uid : String) (c : Option Info) (ms : List Mention) : Option Info :=
  ms.foldl (fun c mn => some (infoStep uid c mn)) c

/-- The first of two options (`a` when present, else `b`). -/
def orFirst {α : Type} (a b : Option α) : Option α :=
  match a with
  | some x => some x
  | none => b

/-- The first truthy (nonempty) email among the mentions. -/
def firstTruthyEmail (ms : List Mention) : Option String :=
  ms.findSome? fun mn => if jsTruthy mn.email? then mn.email? else none

/-! ### Lookup lemmas for the user map -/

theorem entry?_append (m : UserMap) (id : String) (x : UserAggregate) (uid : String) :
    entry? (m ++ [(id, x)]) uid =
      match entry? m uid with
      | some v => some v
      | none => if id = uid then some x else none := by
  induction m with
  | nil => simp [entry?]
  | cons p rest ih =>
    obtain ⟨k, v⟩ := p
    by_cases hk : k = uid <;> simp [entry?, hk, ih]

theorem entry?_overwrite (m : UserMap) (id : String) (g : UserAggregate → UserAggregate)
    (uid : String) :
    entry? (overwrite m id g) uid =
      if id = uid then (entry? m uid).map g else entry? m uid := by
  induction m with
  | nil => simp [entry?, overwrite]
  | cons p rest ih =>
    obtain ⟨k, v⟩ := p
    have hcons : overwrite ((k, v) :: rest) id g
        = (if k = id then (k, g v) else (k, v)) :: overwrite rest id g := rfl
    rw [hcons]
    by_cases hk : k = id
    · rw [if_pos hk]
      by_cases hu : k = uid
      · have hiu : id = uid := hk.symm.trans hu
        simp [entry?, hu, hiu, ih]
      · have hiu : id ≠ uid := fun h => hu (hk.trans h)
        simp [entry?, hu, hiu, ih]
    · rw [if_neg hk]
      by_cases hu : k = uid
      · have hiu : id ≠ uid := fun h => hk (hu.trans h.symm)
        simp [entry?, hu, hiu]
      · simp [entry?, hu, ih]

theorem entry?_touch (m : UserMap) (id : String) (n : Option String) (r : Option AdminRole)
    (em : Option String) (f : UserAggregate → UserAggregate) (uid : String) :
    entry? (touch m id n r em f) uid =
      if id = uid then
        some (f (match entry? m uid with
                 | none => freshUA id n r em
                 | some u => enrichUA u n r em))
      else entry? m uid := by
  unfold touch
  cases h : entry? m id with
  | none =>
    rw [entry?_append]
    cases hu : entry? m uid with
    | none => simp
    | some v =>
      have hne : id ≠ uid := by
        intro he
        rw [he, hu] at h
        cases h
      simp [hne]
  | some u =>
    rw [entry?_overwrite]
    by_cases he : id = uid
    · subst he
      rw [h]
      simp
    · simp [he]

/-! ### Field behaviour of the entry transformers -/

theorem bumpSent_fields (u : UserAggregate) :
    (bumpSent u).sent = u.sent + 1 ∧ (bumpSent u).received = u.received ∧
      (bumpSent u).positiveReceived = u.positiveReceived ∧
      (bumpSent u).negativeReceived = u.negativeReceived ∧
      (bumpSent u).neutralReceived = u.neutralReceived := by
  simp [bumpSent]

theorem bumpReceived_fields (u : UserAggregate) (label : String) :
    (bumpReceived u label).sent = u.sent ∧
      (bumpReceived u label).received = u.received + 1 ∧
      (bumpReceived u label).positiveReceived
        = u.positiveReceived + (if label = "positivo" then 1 else 0) ∧
      (bumpReceived u label).negativeReceived
        = u.negativeReceived + (if label = "negativo" then 1 else 0) ∧
      (bumpReceived u label).neutralReceived
        = u.neutralReceived + (if label ≠ "positivo" ∧ label ≠ "negativo" then 1 else 0) := by
  unfold bumpReceived
  by_cases hp : label = "positivo" <;> by_cases hn : label = "negativo" <;>
    simp_all

theorem enrichUA_counters (u : UserAggregate) (n : Option String) (r : Option AdminRole)
    (em : Option String) :
    (enrichUA u n r em).sent = u.sent ∧ (enrichUA u n r em).received = u.received ∧
      (enrichUA u n r em).positiveReceived = u.positiveReceived ∧
      (enrichUA u n r em).negativeReceived = u.negativeReceived ∧
      (enrichUA u n r em).neutralReceived = u.neutralReceived := by
  simp [enrichUA]

theorem freshUA_counters (id : String) (n : Option String) (r : Option AdminRole)
    (em : Option String) :
    (freshUA id n r em).sent = 0 ∧ (freshUA id n r em).received = 0 ∧
      (freshUA id n r em).positiveReceived = 0 ∧
      (freshUA id n r em).negativeReceived = 0 ∧
      (freshUA id n r em).neutralReceived = 0 := by
  simp [freshUA]

/-! ### Counter projections across one `touch` -/

theorem sentOf_touch_bumpSent (m : UserMap) (id : String) (n : Option String)
    (r : Option AdminRole) (em : Option String) (uid : String) :
    sentOf (touch m id n r em bumpSent) uid = sentOf m uid + (if id = uid then 1 else 0) := by
  unfold sentOf
  rw [entry?_touch]
  by_cases h : id = uid
  · rw [if_pos h]
    cases hu : entry? m uid with
    | none => simp [h, bumpSent, freshUA]
    | some u => simp [h, bumpSent, enrichUA]
  · simp [h]

theorem sentOf_touch_bumpReceived (m : UserMap) (id : String) (n : Option String)
    (r : Option AdminRole) (em : Option String) (l : String) (uid : String) :
    sentOf (touch m id n r em (fun u => bumpReceived u l)) uid = sentOf m uid := by
  unfold sentOf
  rw [entry?_touch]
  by_cases h : id = uid
  · rw [if_pos h]
    cases hu : entry? m uid with
    | none => simp [(bumpReceived_fields _ l).1, freshUA]
    | some u => simp [(bumpReceived_fields _ l).1, enrichUA]
  · simp [h]

theorem receivedOf_touch_bumpSent (m : UserMap) (id : String) (n : Option String)
    (r : Option AdminRole) (em : Option String) (uid : String) :
    receivedOf (touch m id n r em bumpSent) uid = receivedOf m uid := by
  unfold receivedOf
  rw [entry?_touch]
  by_cases h : id = uid
  · rw [if_pos h]
    cases hu : entry? m uid with
    | none => simp [bumpSent, freshUA]
    | some u => simp [bumpSent, enrichUA]
  · simp [h]

theorem receivedOf_touch_bumpReceived (m : UserMap) (id : String) (n : Option String)
    (r : Option AdminRole) (em : Option String) (l : String) (uid : String) :
    receivedOf (touch m id n r em (fun u => bumpReceived u l)) uid
      = receivedOf m uid + (if id = uid then 1 else 0) := by
  unfold receivedOf
  rw [entry?_touch]
  by_cases h : id = uid
  · rw [if_pos h]
    cases hu : entry? m uid with
    | none => simp [h, (bumpReceived_fields _ l).2.1, freshUA]
    | some u => simp [h, (bumpReceived_fields _ l).2.1, enrichUA]
  · simp [h]

theorem posOf_touch_bumpSent (m : UserMap) (id : String) (n : Option String)
    (r : Option AdminRole) (em : Option String) (uid : String) :
    posOf (touch m id n r em bumpSent) uid = posOf m uid := by
  unfold posOf
  rw [entry?_touch]
  by_cases h : id = uid
  · rw [if_pos h]
    cases hu : entry? m uid with
    | none => simp [bumpSent, freshUA]
    | some u => simp [bumpSent, enrichUA]
  · simp [h]

theorem posOf_touch_bumpReceived (m : UserMap) (id : String) (n : Option String)
    (r : Option AdminRole) (em : Option String) (l : String) (uid : String) :
    posOf (touch m id n r em (fun u => bumpReceived u l)) uid
      = posOf m uid + (if id = uid ∧ l = "positivo" then 1 else 0) := by
  unfold posOf
  rw [entry?_touch]
  by_cases h : id = uid
  · rw [if_pos h]
    cases hu : entry? m uid with
    | none => by_cases hl : l = "positivo" <;>
        simp [h, hl, bumpReceived_fields, freshUA]
    | some u => by_cases hl : l = "positivo" <;>
        simp [h, hl, bumpReceived_fields, enrichUA]
  · simp [h]

theorem negOf_touch_bumpSent (m : UserMap) (id : String) (n : Option String)
    (r : Option AdminRole) (em : Option String) (uid : String) :
    negOf (touch m id n r em bumpSent) uid = negOf m uid := by
  unfold negOf
  rw [entry?_touch]
  by_cases h : id = uid
  · rw [if_pos h]
    cases hu : entry? m uid with
    | none => simp [bumpSent, freshUA]
    | some u => simp [bumpSent, enrichUA]
  · simp [h]

theorem negOf_touch_bumpReceived (m : UserMap) (id : String) (n : Option String)
    (r : Option AdminRole) (em : Option String) (l : String) (uid : String) :
    negOf (touch m id n r em (fun u => bumpReceived u l)) uid
      = negOf m uid + (if id = uid ∧ l = "negativo" then 1 else 0) := by
  unfold negOf
  rw [entry?_touch]
  by_cases h : id = uid
  · rw [if_pos h]
    cases hu : entry? m uid with
    | none => by_cases hl : l = "negativo" <;>
        simp [h, hl, bumpReceived_fields, freshUA]
    | some u => by_cases hl : l = "negativo" <;>
        simp [h, hl, bumpReceived_fields, enrichUA]
  · simp [h]

theorem neuOf_touch_bumpSent (m : UserMap) (id : String) (n : Option String)
    (r : Option AdminRole) (em : Option String) (uid : String) :
    neuOf (touch m id n r em bumpSent) uid = neuOf m uid := by
  unfold neuOf
  rw [entry?_touch]
  by_cases h : id = uid
  · rw [if_pos h]
    cases hu : entry? m uid with
    | none => simp [bumpSent, freshUA]
    | some u => simp [bumpSent, enrichUA]
  · simp [h]

theorem neuOf_touch_bumpReceived (m : UserMap) (id : String) (n : Option String)
    (r : Option AdminRole) (em : Option String) (l : String) (uid : String) :
    neuOf (touch m id n r em (fun u => bumpReceived u l)) uid
      = neuOf m uid + (if id = uid ∧ l ≠ "positivo" ∧ l ≠ "negativo" then 1 else 0) := by
  unfold neuOf
  rw [entry?_touch]
  by_cases h : id = uid
  · rw [if_pos h]
    cases hu : entry? m uid with
    | none => by_cases hp : l = "positivo" <;> by_cases hn : l = "negativo" <;>
        simp [h, hp, hn, bumpReceived_fields, freshUA]
    | some u => by_cases hp : l = "positivo" <;> by_cases hn : l = "negativo" <;>
        simp [h, hp, hn, bumpReceived_fields, enrichUA]
  · simp [h]

/-! ### Counter projections across one event -/

theorem sentOf_processEvent (m : UserMap) (e : FeedbackEvent) (uid : String) :
    sentOf (processEvent m e) uid = sentOf m uid + (if e.sender_id = uid then 1 else 0) := by
  unfold processEvent
  by_cases ht : e.target_type = TargetType.user
  · simp only [ht, if_pos]
    rw [sentOf_touch_bumpReceived, sentOf_touch_bumpSent]
  · simp only [ht, if_neg, ite_false]
    rw [sentOf_touch_bumpSent]

theorem receivedOf_processEvent (m : UserMap) (e : FeedbackEvent) (uid : String) :
    receivedOf (processEvent m e) uid
      = receivedOf m uid
        + (if e.target_type = TargetType.user ∧ e.target_id = uid then 1 else 0) := by
  unfold processEvent
  by_cases ht : e.target_type = TargetType.user
  · simp only [ht, if_pos]
    rw [receivedOf_touch_bumpReceived, receivedOf_touch_bumpSent]
    simp [ht]
  · simp only [ht, if_neg, ite_false]
    rw [receivedOf_touch_bumpSent]
    simp [ht]

theorem posOf_processEvent (m : UserMap) (e : FeedbackEvent) (uid : String) :
    posOf (processEvent m e) uid
      = posOf m uid
        + (if e.target_type = TargetType.user ∧ e.target_id = uid
              ∧ normLabel e.sentiment_label = "positivo" then 1 else 0) := by
  unfold processEvent
  by_cases ht : e.target_type = TargetType.user
  · simp only [ht, if_pos]
    rw [posOf_touch_bumpReceived, posOf_touch_bumpSent]
    simp [ht]
  · simp only [ht, if_neg, ite_false]
    rw [posOf_touch_bumpSent]
    simp [ht]

theorem negOf_processEvent (m : UserMap) (e : FeedbackEvent) (uid : String) :
    negOf (processEvent m e) uid
      = negOf m uid
        + (if e.target_type = TargetType.user ∧ e.target_id = uid
              ∧ normLabel e.sentiment_label = "negativo" then 1 else 0) := by
  unfold processEvent
  by_cases ht : e.target_type = TargetType.user
  · simp only [ht, if_pos]
    rw [negOf_touch_bumpReceived, negOf_touch_bumpSent]
    simp [ht]
  · simp only [ht, if_neg, ite_false]
    rw [negOf_touch_bumpSent]
    simp [ht]

theorem neuOf_processEvent (m : UserMap) (e : FeedbackEvent) (uid : String) :
    neuOf (processEvent m e) uid
      = neuOf m uid
        + (if e.target_type = TargetType.user ∧ e.target_id = uid
              ∧ normLabel e.sentiment_label ≠ "positivo"
              ∧ normLabel e.sentiment_label ≠ "negativo" then 1 else 0) := by
  unfold processEvent
  by_cases ht : e.target_type = TargetType.user
  · simp only [ht, if_pos]
    rw [neuOf_touch_bumpReceived, neuOf_touch_bumpSent]
    simp [ht]
  · simp only [ht, if_neg, ite_false]
    rw [neuOf_touch_bumpSent]
    simp [ht]

/-! ### Counter projections of the full reduction -/

theorem sentOf_foldl (events : List FeedbackEvent) (uid : String) : ∀ m : UserMap,
    sentOf (events.foldl processEvent m) uid
      = sentOf m uid + events.countP fun e => decide (e.sender_id = uid) := by
  induction events with
  | nil => intro m; simp
  | cons e es ih =>
    intro m
    rw [List.foldl_cons, ih, sentOf_processEvent, List.countP_cons]
    by_cases h : e.sender_id = uid <;> simp [h] <;> omega

theorem receivedOf_foldl (events : List FeedbackEvent) (uid : String) : ∀ m : UserMap,
    receivedOf (events.foldl processEvent m) uid
      = receivedOf m uid
        + events.countP fun e =>
            decide (e.target_type = TargetType.user ∧ e.target_id = uid) := by
  induction events with
  | nil => intro m; simp
  | cons e es ih =>
    intro m
    rw [List.foldl_cons, ih, receivedOf_processEvent, List.countP_cons]
    by_cases h : e.target_type = TargetType.user ∧ e.target_id = uid <;>
      simp [h] <;> omega

theorem posOf_foldl (events : List FeedbackEvent) (uid : String) : ∀ m : UserMap,
    posOf (events.foldl processEvent m) uid
      = posOf m uid
        + events.countP fun e =>
            decide (e.target_type = TargetType.user ∧ e.target_id = uid
              ∧ normLabel e.sentiment_label = "positivo") := by
  induction events with
  | nil => intro m; simp
  | cons e es ih =>
    intro m
    rw [List.foldl_cons, ih, posOf_processEvent, List.countP_cons]
    by_cases h : e.target_type = TargetType.user ∧ e.target_id = uid
        ∧ normLabel e.sentiment_label = "positivo" <;>
      simp [h] <;> omega

theorem negOf_foldl (events : List FeedbackEvent) (uid : String) : ∀ m : UserMap,
    negOf (events.foldl processEvent m) uid
      = negOf m uid
        + events.countP fun e =>
            decide (e.target_type = TargetType.user ∧ e.target_id = uid
              ∧ normLabel e.sentiment_label = "negativo") := by
  induction events with
  | nil => intro m; simp
  | cons e es ih =>
    intro m
    rw [List.foldl_cons, ih, negOf_processEvent, List.countP_cons]
    by_cases h : e.target_type = TargetType.user ∧ e.target_id = uid
        ∧ normLabel e.sentiment_label = "negativo" <;>
      simp [h] <;> omega

theorem neuOf_foldl (events : List FeedbackEvent) (uid : String) : ∀ m : UserMap,
    neuOf (events.foldl processEvent m) uid
      = neuOf m uid
        + events.countP fun e =>
            decide (e.target_type = TargetType.user ∧ e.target_id = uid
              ∧ normLabel e.sentiment_label ≠ "positivo"
              ∧ normLabel e.sentiment_label ≠ "negativo") := by
  induction events with
  | nil => intro m; simp
  | cons e es ih =>
    intro m
    rw [List.foldl_cons, ih, neuOf_processEvent, List.countP_cons]
    by_cases h : e.target_type = TargetType.user ∧ e.target_id = uid
        ∧ normLabel e.sentiment_label ≠ "positivo"
        ∧ normLabel e.sentiment_label ≠ "negativo" <;>
      simp [h] <;> omega

/-- Every user-targeted event falls into exactly one sentiment bucket, so
the three bucket counts partition the received count. -/
theorem countP_sentiment_partition (events : List FeedbackEvent) (uid : String) :
    (events.countP fun e =>
        decide (e.target_type = TargetType.user ∧ e.target_id = uid
          ∧ normLabel e.sentiment_label = "positivo"))
      + (events.countP fun e =>
          decide (e.target_type = TargetType.user ∧ e.target_id = uid
            ∧ normLabel e.sentiment_label = "negativo"))
      + (events.countP fun e =>
          decide (e.target_type = TargetType.user ∧ e.target_id = uid
            ∧ normLabel e.sentiment_label ≠ "positivo"
            ∧ normLabel e.sentiment_label ≠ "negativo"))
      = events.countP fun e =>
          decide (e.target_type = TargetType.user ∧ e.target_id = uid) := by
  induction events with
  | nil => simp
  | cons e es ih =>
    simp only [List.countP_cons]
    by_cases h1 : e.target_type = TargetType.user
    · by_cases h2 : e.target_id = uid
      · by_cases hp : normLabel e.sentiment_label = "positivo"
        · have hn : normLabel e.sentiment_label ≠ "negativo" := by
            rw [hp]; decide
          simp [h1, h2, hp, hn] at ih ⊢
          omega
        · by_cases hn : normLabel e.sentiment_label = "negativo"
          · simp [h1, h2, hp, hn] at ih ⊢
            omega
          · simp [h1, h2, hp, hn] at ih ⊢
            omega
      · simp [h1, h2] at ih ⊢
        omega
    · simp [h1] at ih ⊢
      omega

/-- The scenario event list of the specification:
`[{sender:A,target:B(Person),positive}, {sender:A,target:C(Classroom)},
{sender:B,target:A(Person),negative}]`. -/
def scenarioEvents : List FeedbackEvent :=
  [ { sender_id := "A", target_type := TargetType.user, target_id := "B",
      sentiment_label := some "positivo" }
  , { sender_id := "A", target_type := TargetType.classroom, target_id := "C" }
  , { sender_id := "B", target_type := TargetType.user, target_id := "A",
      sentiment_label := some "negativo" } ]

/-- C1.  The aggregation pass gives every person exactly the counters the
claim describes: `sent` counts the events they sent; exactly when an
event's target is a Person (`'user'` target) it also increments the
target's `received` and exactly one sentiment bucket — `positiveReceived`
for normalized label `positivo`, `negativeReceived` for `negativo`,
`neutralReceived` otherwise (absent or unrecognized labels included), so
the three buckets partition `received`; Classroom/Subject targets
contribute to no `received` bucket.  On the specification's scenario list
the counters are A.sent=2, A.received=1 (negative), B.sent=1,
B.received=1 (positive), and C has no entry (hence no received bucket). -/
theorem C1_aggregation_per_person (events : List FeedbackEvent) (uid : String) :
    (sentOf (aggregateMap events) uid
        = events.countP fun e => decide (e.sender_id = uid))
    ∧ (receivedOf (aggregateMap events) uid
        = events.countP fun e =>
            decide (e.target_type = TargetType.user ∧ e.target_id = uid))
    ∧ (posOf (aggregateMap events) uid
        = events.countP fun e =>
            decide (e.target_type = TargetType.user ∧ e.target_id = uid
              ∧ normLabel e.sentiment_label = "positivo"))
    ∧ (negOf (aggregateMap events) uid
        = events.countP fun e =>
            decide (e.target_type = TargetType.user ∧ e.target_id = uid
              ∧ normLabel e.sentiment_label = "negativo"))
    ∧ (neuOf (aggregateMap events) uid
        = events.countP fun e =>
            decide (e.target_type = TargetType.user ∧ e.target_id = uid
              ∧ normLabel e.sentiment_label ≠ "positivo"
              ∧ normLabel e.sentiment_label ≠ "negativo"))
    ∧ posOf (aggregateMap events) uid + negOf (aggregateMap events) uid
        + neuOf (aggregateMap events) uid
        = receivedOf (aggregateMap events) uid
    ∧ (sentOf (aggregateMap scenarioEvents) "A" = 2
        ∧ receivedOf (aggregateMap scenarioEvents) "A" = 1
        ∧ negOf (aggregateMap scenarioEvents) "A" = 1
        ∧ posOf (aggregateMap scenarioEvents) "A" = 0
        ∧ neuOf (aggregateMap scenarioEvents) "A" = 0
        ∧ sentOf (aggregateMap scenarioEvents) "B" = 1
        ∧ receivedOf (aggregateMap scenarioEvents) "B" = 1
        ∧ posOf (aggregateMap scenarioEvents) "B" = 1
        ∧ entry? (aggregateMap scenarioEvents) "C" = none) := by
  have hs : sentOf (aggregateMap events) uid
      = events.countP fun e => decide (e.sender_id = uid) := by
    simpa [aggregateMap, sentOf, entry?] using sentOf_foldl events uid []
  have hr : receivedOf (aggregateMap events) uid
      = events.countP fun e =>
          decide (e.target_type = TargetType.user ∧ e.target_id = uid) := by
    simpa [aggregateMap, receivedOf, entry?] using receivedOf_foldl events uid []
  have hp : posOf (aggregateMap events) uid
      = events.countP fun e =>
          decide (e.target_type = TargetType.user ∧ e.target_id = uid
            ∧ normLabel e.sentiment_label = "positivo") := by
    simpa [aggregateMap, posOf, entry?] using posOf_foldl events uid []
  have hn : negOf (aggregateMap events) uid
      = events.countP fun e =>
          decide (e.target_type = TargetType.user ∧ e.target_id = uid
            ∧ normLabel e.sentiment_label = "negativo") := by
    simpa [aggregateMap, negOf, entry?] using negOf_foldl events uid []
  have hu : neuOf (aggregateMap events) uid
      = events.countP fun e =>
          decide (e.target_type = TargetType.user ∧ e.target_id = uid
            ∧ normLabel e.sentiment_label ≠ "positivo"
            ∧ normLabel e.sentiment_label ≠ "negativo") := by
    simpa [aggregateMap, neuOf, entry?] using neuOf_foldl events uid []
  refine ⟨hs, hr, hp, hn, hu, ?_, ?_⟩
  · rw [hp, hn, hu, hr]
    exact countP_sentiment_partition events uid
  · decide

/-- Each `statsStep` adds exactly one to the three sentiment buckets
combined, at most one to `triggers`, and leaves `total` unchanged. -/
theorem stats_foldl_invariant (events : List FeedbackEvent) : ∀ acc : Stats,
    ((events.foldl statsStep acc).positivo + (events.foldl statsStep acc).neutro
        + (events.foldl statsStep acc).negativo
      = acc.positivo + acc.neutro + acc.negativo + events.length)
    ∧ (events.foldl statsStep acc).triggers ≤ acc.triggers + events.length
    ∧ (events.foldl statsStep acc).total = acc.total := by
  induction events with
  | nil => intro acc; simp
  | cons e es ih =>
    intro acc
    rw [List.foldl_cons]
    obtain ⟨ih1, ih2, ih3⟩ := ih (statsStep acc e)
    have hstep : (statsStep acc e).positivo + (statsStep acc e).neutro
          + (statsStep acc e).negativo
          = acc.positivo + acc.neutro + acc.negativo + 1
        ∧ (statsStep acc e).triggers ≤ acc.triggers + 1
        ∧ (statsStep acc e).total = acc.total := by
      unfold statsStep
      by_cases h1 : normLabel e.sentiment_label = "positivo"
      · cases ht : e.has_trigger <;> simp [h1, ht] <;> omega
      · by_cases h2 : normLabel e.sentiment_label = "neutro"
        · cases ht : e.has_trigger <;> simp [h1, h2, ht] <;> omega
        · by_cases h3 : normLabel e.sentiment_label = "negativo"
          · cases ht : e.has_trigger <;> simp [h1, h2, h3, ht] <;> omega
          · cases ht : e.has_trigger <;> simp [h1, h2, h3, ht] <;> omega
    refine ⟨?_, ?_, ?_⟩
    · rw [ih1, hstep.1]
      simp [List.length_cons]
      omega
    · have h2 := hstep.2.1
      simp only [List.length_cons]
      omega
    · rw [ih3, hstep.2.2]

/-- C2.  For every feedback list, the global summary statistics satisfy
`positivo + neutro + negativo = total` and `triggers ≤ total`, where
`total` is the length of the list: every event lands in exactly one
sentiment bucket, with absent or unrecognized labels counted as
`neutro`. -/
theorem C2_stats_partition (events : List FeedbackEvent) :
    (stats events).positivo + (stats events).neutro + (stats events).negativo
        = (stats events).total
    ∧ (stats events).triggers ≤ (stats events).total
    ∧ (stats events).total = events.length := by
  obtain ⟨h1, h2, h3⟩ :=
    stats_foldl_invariant events
      { total := events.length, positivo := 0, neutro := 0, negativo := 0, triggers := 0 }
  unfold stats
  refine ⟨?_, ?_, ?_⟩
  · rw [h1, h3]
    simp
  · rw [h3]
    simpa using h2
  · simpa using h3

/-! ### Ranking invariants -/

theorem sortBy_invariants (accessor : UserAggregate → Nat) (filterFn : UserAggregate → Bool)
    (l : List UserAggregate) :
    (sortBy accessor filterFn l).length ≤ 5
    ∧ List.Sorted (fun a b => accessor b ≤ accessor a) (sortBy accessor filterFn l)
    ∧ ∀ x ∈ sortBy accessor filterFn l, filterFn x = true := by
  unfold sortBy
  refine ⟨?_, ?_, ?_⟩
  · simpa using List.length_take_le 5 _
  · haveI : IsTotal UserAggregate (fun a b => accessor b ≤ accessor a) :=
      ⟨fun a b => le_total (accessor b) (accessor a)⟩
    haveI : IsTrans UserAggregate (fun a b => accessor b ≤ accessor a) :=
      ⟨fun _ _ _ h1 h2 => le_trans h2 h1⟩
    exact List.Pairwise.sublist (List.take_sublist _ _) (List.sorted_insertionSort _ _)
  · intro x hx
    have hx' := (List.take_sublist _ _).subset hx
    rw [List.mem_insertionSort] at hx'
    exact List.of_mem_filter hx'

theorem postFiltered_invariants (accessor : UserAggregate → Nat) (p : UserAggregate → Bool)
    (l : List UserAggregate) :
    ((sortBy accessor (fun _ => true) l).filter p).length ≤ 5
    ∧ List.Sorted (fun a b => accessor b ≤ accessor a)
        ((sortBy accessor (fun _ => true) l).filter p)
    ∧ ∀ x ∈ (sortBy accessor (fun _ => true) l).filter p, p x = true := by
  obtain ⟨h1, h2, _⟩ := sortBy_invariants accessor (fun _ => true) l
  refine ⟨?_, ?_, ?_⟩
  · exact le_trans (List.length_filter_le _ _) h1
  · exact List.Pairwise.sublist (List.filter_sublist _) h2
  · intro x hx
    exact List.of_mem_filter hx

/-- C3 (amended).  Every one of the seven ranking lists, over any
per-person aggregate list, has length at most 5, is sorted descending by
its metric, and contains no zero-metric entry (and the role-filtered
rankings contain only entries of their role).  The role-filtered rankings
apply their filter before the sort-and-slice (inside `sortBy`), while
`topSenders`/`topRecipients` drop zero-metric entries after it. -/
theorem C3_ranking_invariants (l : List UserAggregate) :
    ((analytics l).topSenders.length ≤ 5
      ∧ List.Sorted (fun a b => b.sent ≤ a.sent) (analytics l).topSenders
      ∧ ∀ x ∈ (analytics l).topSenders, 0 < x.sent)
    ∧ ((analytics l).topRecipients.length ≤ 5
      ∧ List.Sorted (fun a b => b.received ≤ a.received) (analytics l).topRecipients
      ∧ ∀ x ∈ (analytics l).topRecipients, 0 < x.received)
    ∧ ((analytics l).praisedStudents.length ≤ 5
      ∧ List.Sorted (fun a b => b.positiveReceived ≤ a.positiveReceived)
          (analytics l).praisedStudents
      ∧ ∀ x ∈ (analytics l).praisedStudents,
          0 < x.positiveReceived ∧ x.role = some AdminRole.aluno)
    ∧ ((analytics l).praisedTeachers.length ≤ 5
      ∧ List.Sorted (fun a b => b.positiveReceived ≤ a.positiveReceived)
          (analytics l).praisedTeachers
      ∧ ∀ x ∈ (analytics l).praisedTeachers,
          0 < x.positiveReceived ∧ x.role = some AdminRole.professor)
    ∧ ((analytics l).pressuredStudents.length ≤ 5
      ∧ List.Sorted (fun a b => b.negativeReceived ≤ a.negativeReceived)
          (analytics l).pressuredStudents
      ∧ ∀ x ∈ (analytics l).pressuredStudents,
          0 < x.negativeReceived ∧ x.role = some AdminRole.aluno)
    ∧ ((analytics l).pressuredTeachers.length ≤ 5
      ∧ List.Sorted (fun a b => b.negativeReceived ≤ a.negativeReceived)
          (analytics l).pressuredTeachers
      ∧ ∀ x ∈ (analytics l).pressuredTeachers,
          0 < x.negativeReceived ∧ x.role = some AdminRole.professor)
    ∧ ((analytics l).professorSentiments.length ≤ 5
      ∧ List.Sorted (fun a b => b.received ≤ a.received) (analytics l).professorSentiments
      ∧ ∀ x ∈ (analytics l).professorSentiments,
          0 < x.received ∧ x.role = some AdminRole.professor) := by
  refine ⟨?_, ?_, ?_, ?_, ?_, ?_, ?_⟩
  · obtain ⟨h1, h2, h3⟩ := postFiltered_invariants (·.sent) (fun i => decide (0 < i.sent)) l
    exact ⟨h1, h2, fun x hx => of_decide_eq_true (h3 x hx)⟩
  · obtain ⟨h1, h2, h3⟩ :=
      postFiltered_invariants (·.received) (fun i => decide (0 < i.received)) l
    exact ⟨h1, h2, fun x hx => of_decide_eq_true (h3 x hx)⟩
  · obtain ⟨h1, h2, h3⟩ := sortBy_invariants (·.positiveReceived)
      (fun i => decide (i.role = some AdminRole.aluno) && decide (0 < i.positiveReceived)) l
    refine ⟨h1, h2, fun x hx => ?_⟩
    have := h3 x hx
    simp only [Bool.and_eq_true, decide_eq_true_eq] at this
    exact ⟨this.2, this.1⟩
  · obtain ⟨h1, h2, h3⟩ := sortBy_invariants (·.positiveReceived)
      (fun i => decide (i.role = some AdminRole.professor) && decide (0 < i.positiveReceived)) l
    refine ⟨h1, h2, fun x hx => ?_⟩
    have := h3 x hx
    simp only [Bool.and_eq_true, decide_eq_true_eq] at this
    exact ⟨this.2, this.1⟩
  · obtain ⟨h1, h2, h3⟩ := sortBy_invariants (·.negativeReceived)
      (fun i => decide (i.role = some AdminRole.aluno) && decide (0 < i.negativeReceived)) l
    refine ⟨h1, h2, fun x hx => ?_⟩
    have := h3 x hx
    simp only [Bool.and_eq_true, decide_eq_true_eq] at this
    exact ⟨this.2, this.1⟩
  · obtain ⟨h1, h2, h3⟩ := sortBy_invariants (·.negativeReceived)
      (fun i => decide (i.role = some AdminRole.professor) && decide (0 < i.negativeReceived)) l
    refine ⟨h1, h2, fun x hx => ?_⟩
    have := h3 x hx
    simp only [Bool.and_eq_true, decide_eq_true_eq] at this
    exact ⟨this.2, this.1⟩
  · obtain ⟨h1, h2, h3⟩ := sortBy_invariants (·.received)
      (fun i => decide (i.role = some AdminRole.professor) && decide (0 < i.received)) l
    refine ⟨h1, h2, fun x hx => ?_⟩
    have := h3 x hx
    simp only [Bool.and_eq_true, decide_eq_true_eq] at this
    exact ⟨this.2, this.1⟩

/-- `praisedStudents` computed in the order the claim's wording
prescribes (modelled from the claim, not from the source): sort all
aggregates descending by `positiveReceived`, take at most 5, and only
then apply the role and strictly-positive filters. -/
def praisedStudentsSpecOrder (arr : List UserAggregate) : List UserAggregate :=
  ((arr.insertionSort fun a b => b.positiveReceived ≤ a.positiveReceived).take 5).filter
    fun i => decide (i.role = some AdminRole.aluno) && decide (0 < i.positiveReceived)

/-- Event list separating the two orders: five professors each receive
one positive feedback before a student receives one. -/
def rankScenarioEvents : List FeedbackEvent :=
  [ { sender_id := "s0", target_type := TargetType.user, target_id := "t1",
      target_role := some AdminRole.professor, sentiment_label := some "positivo" }
  , { sender_id := "s0", target_type := TargetType.user, target_id := "t2",
      target_role := some AdminRole.professor, sentiment_label := some "positivo" }
  , { sender_id := "s0", target_type := TargetType.user, target_id := "t3",
      target_role := some AdminRole.professor, sentiment_label := some "positivo" }
  , { sender_id := "s0", target_type := TargetType.user, target_id := "t4",
      target_role := some AdminRole.professor, sentiment_label := some "positivo" }
  , { sender_id := "s0", target_type := TargetType.user, target_id := "t5",
      target_role := some AdminRole.professor, sentiment_label := some "positivo" }
  , { sender_id := "s0", target_type := TargetType.user, target_id := "a1",
      target_role := some AdminRole.aluno, sentiment_label := some "positivo" } ]

/-- C3 counterexample.  On `rankScenarioEvents` the code's
`praisedStudents` ranking is the nonempty list holding the student, while
computing it in the claim's order — sort all, take 5, then filter — drops
the student (the top five by `positiveReceived` are the professors) and
yields the empty list, so the claim's description of the computation does
not match the code. -/
theorem C3_counterexample :
    (analytics (toArray (aggregateMap rankScenarioEvents))).praisedStudents ≠ []
    ∧ praisedStudentsSpecOrder (toArray (aggregateMap rankScenarioEvents)) = []
    ∧ (analytics (toArray (aggregateMap rankScenarioEvents))).praisedStudents
        ≠ praisedStudentsSpecOrder (toArray (aggregateMap rankScenarioEvents)) := by
  refine ⟨by decide, by decide, by decide⟩

/-- Closed instance of `C3_ranking_invariants`: the membership hypothesis
of the `praisedStudents` conjunct is discharged on the concrete student
entry produced by `rankScenarioEvents`. -/
theorem C3_ranking_invariants_witness :
    0 < (⟨"a1", "Usuário #a1", some AdminRole.aluno, none, 0, 1, 1, 0, 0⟩
          : UserAggregate).positiveReceived
    ∧ (⟨"a1", "Usuário #a1", some AdminRole.aluno, none, 0, 1, 1, 0, 0⟩
          : UserAggregate).role = some AdminRole.aluno :=
  (C3_ranking_invariants (toArray (aggregateMap rankScenarioEvents))).2.2.1.2.2
    ⟨"a1", "Usuário #a1", some AdminRole.aluno, none, 0, 1, 1, 0, 0⟩ (by decide)

/-- C4 (amended).  `ensureValidAccessToken` returns absent when no token
is stored; returns the stored token unchanged — whose expiry is then
strictly greater than `now + skew` — when it decodes to an unexpired
expiry; otherwise performs the refresh and returns its outcome unchanged
(absent on failure), with no expiry check on the refreshed token. -/
theorem C4_ensureValid_behavior (stored refreshResult : Option Token)
    (skewSeconds now : Nat) :
    (stored = none → ensureValidAccessToken stored refreshResult skewSeconds now = none)
    ∧ (∀ t, stored = some t → isTokenExpired t skewSeconds now = false →
        ensureValidAccessToken stored refreshResult skewSeconds now = some t
        ∧ ∃ e, t.exp? = some e ∧ now + skewSeconds < e)
    ∧ (∀ t, stored = some t → isTokenExpired t skewSeconds now = true →
        ensureValidAccessToken stored refreshResult skewSeconds now = refreshResult) := by
  refine ⟨?_, ?_, ?_⟩
  · intro h
    rw [h]
    rfl
  · intro t h hv
    rw [h]
    unfold ensureValidAccessToken
    refine ⟨by simp [hv], ?_⟩
    unfold isTokenExpired at hv
    cases he : t.exp? with
    | none => rw [he] at hv; cases hv
    | some e =>
      rw [he] at hv
      refine ⟨e, rfl, ?_⟩
      have := of_decide_eq_false hv
      omega
  · intro t h hv
    rw [h]
    unfold ensureValidAccessToken
    simp [hv]

/-- Closed instance of `C4_ensureValid_behavior`: a stored token with
expiry 200 and `now + skew = 130` is returned unchanged with
`130 < 200`. -/
theorem C4_ensureValid_behavior_witness :
    ensureValidAccessToken (some ⟨some 200⟩) none 30 100 = some ⟨some 200⟩
    ∧ ∃ e, (Token.mk (some 200)).exp? = some e ∧ 100 + 30 < e :=
  (C4_ensureValid_behavior (some ⟨some 200⟩) none 30 100).2.1 ⟨some 200⟩ rfl (by decide)

/-- C4 counterexample.  With an expired stored token (exp 50) and a
refresh endpoint handing back a token whose expiry is 0, the call returns
that refreshed token even though its expiry is not strictly greater than
`now + skew = 130`, refuting the claim's final sentence. -/
theorem C4_counterexample :
    ensureValidAccessToken (some ⟨some 50⟩) (some ⟨some 0⟩) 30 100 = some ⟨some 0⟩
    ∧ ¬ (100 + 30 < 0) :=
  ⟨by decide, by decide⟩

/-! ### Behaviour of the 401 retry -/

theorem ensureValidM_counts (env : Env) (st : St) :
    (ensureValidM env st).2.fetchCount = st.fetchCount
    ∧ (ensureValidM env st).2.retryRefreshCount = st.retryRefreshCount := by
  unfold ensureValidM doRefresh
  cases hs : st.stored with
  | none => simp
  | some t =>
    by_cases he : isTokenExpired t env.skewSeconds env.now = true <;> simp [he]

theorem ensureValidM_valid (env : Env) (st : St) (t : Token) (h : st.stored = some t)
    (hv : isTokenExpired t env.skewSeconds env.now = false) :
    ensureValidM env st = (some t, st) := by
  unfold ensureValidM
  simp [h, hv]

/-- A run with no retry budget never touches the 401-handler refresh and
performs at most one fetch. -/
theorem authFetchAux_zero (env : Env) (st : St) :
    (authFetchAux env 0 st).2.retryRefreshCount = st.retryRefreshCount
    ∧ (authFetchAux env 0 st).2.fetchCount ≤ st.fetchCount + 1 := by
  obtain ⟨e1, e2⟩ := ensureValidM_counts env st
  unfold authFetchAux
  rcases h : ensureValidM env st with ⟨ro, st1⟩
  rw [h] at e1 e2
  simp only [Prod.snd] at e1 e2
  cases ro with
  | none => simp; omega
  | some t =>
    unfold doFetch
    by_cases h401 : env.responses st1.fetchCount = 401
    · simp [h401]; omega
    · by_cases h403 : env.responses st1.fetchCount = 403
      · simp [h401, h403]; omega
      · by_cases hok : 200 ≤ env.responses st1.fetchCount ∧ env.responses st1.fetchCount < 300
        · simp [h401, h403, hok]; omega
        · simp [h401, h403, hok]; omega

/-- At most `retries` replays ever happen: a run performs at most
`retries + 1` fetches. -/
theorem authFetchAux_fetch_le (env : Env) : ∀ (retries : Nat) (st : St),
    (authFetchAux env retries st).2.fetchCount ≤ st.fetchCount + retries + 1 := by
  intro retries
  induction retries with
  | zero => intro st; simpa using (authFetchAux_zero env st).2
  | succ n ih =>
    intro st
    obtain ⟨e1, e2⟩ := ensureValidM_counts env st
    unfold authFetchAux
    rcases h : ensureValidM env st with ⟨ro, st1⟩
    rw [h] at e1 e2
    simp only [Prod.snd] at e1 e2
    cases ro with
    | none => simp; omega
    | some t =>
      unfold doFetch refreshAccessTokenM doRefresh
      by_cases h401 : env.responses st1.fetchCount = 401
      · cases hst : st1.stored with
        | none =>
          simp [h401, hst]
          omega
        | some t1 =>
          cases hr : env.refreshes st1.refreshCount with
          | none =>
            simp [h401, hst, hr]
            omega
          | some t2 =>
            have hrec := ih { st1 with
              fetchCount := st1.fetchCount + 1
              refreshCount := st1.refreshCount + 1
              stored := some t2
              retryRefreshCount := st1.retryRefreshCount + 1 }
            simp [h401, hst, hr] at hrec ⊢
            omega
      · by_cases h403 : env.responses st1.fetchCount = 403
        · simp [h401, h403]; omega
        · by_cases hok : 200 ≤ env.responses st1.fetchCount ∧ env.responses st1.fetchCount < 300
          · simp [h401, h403, hok]; omega
          · simp [h401, h403, hok]; omega

/-- C5 (amended).  Through `authFetch`, at most one replay ever happens
(at most two fetches per call); a 401 first response triggers exactly one
401-handler refresh attempt; if that refresh fails the call ends with the
session-expired error, cleared storage and no replay; if it succeeds with
a token the pre-dispatch check accepts, the call is replayed exactly
once, and a second 401 is terminal: session-expired error and cleared
storage. -/
theorem C5_authFetch_single_retry (env : Env) (st : St) (t0 : Token) :
    (authFetchM env st).2.fetchCount ≤ st.fetchCount + 2
    ∧ (st.stored = some t0 → isTokenExpired t0 env.skewSeconds env.now = false →
        env.responses st.fetchCount = 401 →
        (authFetchM env st).2.retryRefreshCount = st.retryRefreshCount + 1)
    ∧ (st.stored = some t0 → isTokenExpired t0 env.skewSeconds env.now = false →
        env.responses st.fetchCount = 401 →
        env.refreshes st.refreshCount = none →
        (authFetchM env st).1 = Except.error sessionExpiredMsg
        ∧ (authFetchM env st).2.stored = none
        ∧ (authFetchM env st).2.fetchCount = st.fetchCount + 1)
    ∧ (∀ t1, st.stored = some t0 → isTokenExpired t0 env.skewSeconds env.now = false →
        env.responses st.fetchCount = 401 →
        env.refreshes st.refreshCount = some t1 →
        isTokenExpired t1 env.skewSeconds env.now = false →
        env.responses (st.fetchCount + 1) = 401 →
        (authFetchM env st).1 = Except.error sessionExpiredMsg
        ∧ (authFetchM env st).2.stored = none
        ∧ (authFetchM env st).2.fetchCount = st.fetchCount + 2) := by
  refine ⟨?_, ?_, ?_, ?_⟩
  · have := authFetchAux_fetch_le env 1 st
    unfold authFetchM
    omega
  · intro h0 hv h401
    unfold authFetchM authFetchAux
    rw [ensureValidM_valid env st t0 h0 hv]
    unfold doFetch refreshAccessTokenM doRefresh
    cases hr : env.refreshes st.refreshCount with
    | none => simp [h401, h0, hr]
    | some t1 =>
      simp only [h401, h0, hr]
      have hz := (authFetchAux_zero env
        { stored := some t1, fetchCount := st.fetchCount + 1,
          refreshCount := st.refreshCount + 1,
          retryRefreshCount := st.retryRefreshCount + 1 }).1
      simp at hz ⊢
      simpa using hz
  · intro h0 hv h401 hr
    unfold authFetchM authFetchAux
    rw [ensureValidM_valid env st t0 h0 hv]
    unfold doFetch refreshAccessTokenM doRefresh
    simp [h401, h0, hr]
  · intro t1 h0 hv h401 hr hv1 h401b
    unfold authFetchM authFetchAux
    rw [ensureValidM_valid env st t0 h0 hv]
    unfold doFetch refreshAccessTokenM doRefresh
    simp only [h401, h0, hr]
    have hrun : authFetchAux env 0
        { stored := some t1, fetchCount := st.fetchCount + 1,
          refreshCount := st.refreshCount + 1,
          retryRefreshCount := st.retryRefreshCount + 1 }
        = (Except.error sessionExpiredMsg,
            { stored := none, fetchCount := st.fetchCount + 2,
              refreshCount := st.refreshCount + 1,
              retryRefreshCount := st.retryRefreshCount + 1 }) := by
      unfold authFetchAux
      rw [ensureValidM_valid env _ t1 rfl hv1]
      unfold doFetch
      simp [h401b]
    simp [hrun]

/-- A network that answers 401 to every fetch and always refreshes to a
fresh token (expiry 1000). -/
def retryEnv : Env :=
  { responses := fun _ => 401
    bodies := fun _ => ("", none)
    refreshes := fun _ => some ⟨some 1000⟩
    skewSeconds := 30
    now := 100 }

/-- Initial state with a fresh stored token and zeroed counters. -/
def retrySt : St :=
  { stored := some ⟨some 1000⟩, fetchCount := 0, refreshCount := 0, retryRefreshCount := 0 }

/-- Closed instance of `C5_authFetch_single_retry`: on a network that
answers 401 twice with a successful fresh refresh in between, the call
ends session-expired with storage cleared after exactly two fetches. -/
theorem C5_authFetch_single_retry_witness :
    (authFetchM retryEnv retrySt).1 = Except.error sessionExpiredMsg
    ∧ (authFetchM retryEnv retrySt).2.stored = none
    ∧ (authFetchM retryEnv retrySt).2.fetchCount = retrySt.fetchCount + 2 :=
  (C5_authFetch_single_retry retryEnv retrySt ⟨some 1000⟩).2.2.2 ⟨some 1000⟩ rfl
    (by decide) rfl rfl (by decide) rfl

/-- A network answering 401 to every fetch whose first refresh yields an
already-expired token (expiry 0) and whose later refreshes fail. -/
def staleRetryEnv : Env :=
  { responses := fun _ => 401
    bodies := fun _ => ("", none)
    refreshes := fun i => if i = 0 then some ⟨some 0⟩ else none
    skewSeconds := 30
    now := 100 }

/-- C5 counterexample.  Against `staleRetryEnv` the first response is
401 and the 401-handler refresh call succeeds (it returns a token), yet
the call is never replayed — only one fetch happens — because the
replay's own pre-dispatch validity check rejects the stale refreshed
token; so "exactly one replay of the same call" after a successful
refresh does not hold unconditionally. -/
theorem C5_counterexample :
    staleRetryEnv.refreshes 0 = some ⟨some 0⟩
    ∧ (authFetchM staleRetryEnv retrySt).2.retryRefreshCount = 1
    ∧ (authFetchM staleRetryEnv retrySt).2.fetchCount = 1
    ∧ (authFetchM staleRetryEnv retrySt).1 = Except.error sessionExpiredMsg :=
  ⟨rfl, rfl, rfl, rfl⟩

/-- A network that answers 409 with an empty body to every fetch, with a
valid session token stored. -/
def conflictEnv : Env :=
  { responses := fun _ => 409
    bodies := fun _ => ("", none)
    refreshes := fun _ => none
    skewSeconds := 30
    now := 100 }

/-- C6.  For a 409 response with an empty body — the typical bare
Conflict — `parseErrorMessage` already falls back to the generic message,
which is truthy, so `authFetch` surfaces the generic failure message and
the dependency-specific 409 message is not used: deleting a Subject whose
delete returns a bare 409 shows the generic text, contradicting the
claim (and the spec's own 409 rule, which the dead
`status === 409` fallback in the code clearly intends to implement). -/
theorem C6_conflict_message_bug :
    errorMessage 409 "" none = "Não foi possível completar a operação."
    ∧ "Não foi possível completar a operação."
        ≠ "Não é possível concluir: existem vínculos dependentes."
    ∧ (authFetchM conflictEnv retrySt).1
        = Except.error "Não foi possível completar a operação." :=
  ⟨rfl, by decide, rfl⟩

/-- C7.  Changing the Institution select resets the dependent Classroom
and eligible-subjects selections to empty and records the new
Institution; the option sets offered afterwards contain only Subjects and
Classrooms of the newly selected Institution, so no stale reference to
the old Institution survives the change. -/
theorem C7_school_change_cascade (form : UserFormState) (value : Option Nat)
    (subjects : List Subject) (classrooms : List Classroom) :
    (handleSchoolChange form value).classroom_id = none
    ∧ (handleSchoolChange form value).teachable_subject_ids = []
    ∧ (handleSchoolChange form value).school_id = value
    ∧ (∀ sid s, value = some sid →
        s ∈ filteredSubjects (handleSchoolChange form value) subjects →
        s.school_id = sid ∧ s ∈ subjects)
    ∧ (∀ sid c, value = some sid →
        c ∈ filteredClassrooms (handleSchoolChange form value) classrooms →
        c.school_id = sid ∧ c ∈ classrooms) := by
  refine ⟨rfl, rfl, rfl, ?_, ?_⟩
  · intro sid s hv hs
    unfold filteredSubjects handleSchoolChange at hs
    rw [List.mem_filter] at hs
    refine ⟨?_, hs.1⟩
    have := hs.2
    simp [hv] at this
    exact this
  · intro sid c hv hc
    unfold filteredClassrooms handleSchoolChange at hc
    rw [List.mem_filter] at hc
    refine ⟨?_, hc.1⟩
    have := hc.2
    simp [hv] at this
    exact this

/-- A filled student form pointing at Institution 1. -/
def studentForm : UserFormState :=
  { full_name := "Ana", email := "ana@escola.br", password := ""
    role := some AdminRole.aluno, school_id := some 1, classroom_id := some 7
    teachable_subject_ids := [3] }

/-- Closed instance of `C7_school_change_cascade`: switching
`studentForm` to Institution 2 clears the Classroom selection, and a
Subject of Institution 2 offered afterwards indeed has `school_id = 2`. -/
theorem C7_school_change_cascade_witness :
    (handleSchoolChange studentForm (some 2)).classroom_id = none
    ∧ (Subject.mk 10 2 "Matemática").school_id = 2
        ∧ Subject.mk 10 2 "Matemática" ∈ [Subject.mk 10 2 "Matemática"] :=
  ⟨(C7_school_change_cascade studentForm (some 2) [⟨10, 2, "Matemática"⟩] []).1,
    (C7_school_change_cascade studentForm (some 2) [⟨10, 2, "Matemática"⟩] []).2.2.2.1
      2 ⟨10, 2, "Matemática"⟩ rfl (by decide)⟩

/-- C8.  In the assignment editor, for a catalogued Subject the
selectable teacher list is exactly the intersection of the teachers
eligible for that Subject with the teachers of the selected Classroom's
Institution; the teacher select is rendered exactly when that
intersection is nonempty (a warning replaces it otherwise); and every
choice the rendered control offers is either absent or the id of an
eligible, institution-matched teacher. -/
theorem C8_assignment_teacher_eligibility (subjects : List Subject)
    (teachers : List DirectoryUser) (classroom : Classroom) (subjectId : Nat) :
    (teacherSelectRendered subjects teachers classroom subjectId = false
      ↔ teacherList subjects teachers classroom subjectId = [])
    ∧ ((subjects.any fun s => decide (s.id = subjectId)) = true →
        teacherList subjects teachers classroom subjectId
          = teachers.filter fun t =>
              decide (t.school_id = some classroom.school_id)
                && t.teachable_subject_ids.contains subjectId)
    ∧ (∀ t, t ∈ teacherList subjects teachers classroom subjectId →
        t ∈ teachers ∧ t.teachable_subject_ids.contains subjectId = true
          ∧ t.school_id = some classroom.school_id)
    ∧ (∀ c, c ∈ teacherOptions subjects teachers classroom subjectId →
        c = none ∨ ∃ t, t ∈ teachers ∧ c = some t.id
          ∧ t.teachable_subject_ids.contains subjectId = true
          ∧ t.school_id = some classroom.school_id) := by
  have hmem : ∀ t, t ∈ teacherList subjects teachers classroom subjectId →
      t ∈ teachers ∧ t.teachable_subject_ids.contains subjectId = true
        ∧ t.school_id = some classroom.school_id := by
    intro t ht
    unfold teacherList eligibleTeachersBySubject at ht
    rw [List.mem_filter] at ht
    obtain ⟨hin, hschool⟩ := ht
    by_cases hany : (subjects.any fun s => decide (s.id = subjectId)) = true
    · rw [if_pos hany, List.mem_filter] at hin
      exact ⟨hin.1, hin.2, of_decide_eq_true hschool⟩
    · rw [if_neg hany] at hin
      cases hin
  refine ⟨?_, ?_, hmem, ?_⟩
  · unfold teacherSelectRendered
    constructor
    · intro h
      have := of_decide_eq_false h
      simpa [List.length_eq_zero] using not_not.mp this
    · intro h
      rw [h]
      decide
  · intro hany
    unfold teacherList eligibleTeachersBySubject
    rw [if_pos hany, List.filter_filter]
  · intro c hc
    unfold teacherOptions at hc
    rw [List.mem_cons] at hc
    rcases hc with hc | hc
    · exact Or.inl hc
    · right
      rw [List.mem_map] at hc
      obtain ⟨t, ht, rfl⟩ := hc
      obtain ⟨h1, h2, h3⟩ := hmem t ht
      exact ⟨t, h1, rfl, h2, h3⟩

/-- Closed instance of `C8_assignment_teacher_eligibility`: one teacher
eligible for Subject 4 at Institution 2 is offered for a Classroom of
Institution 2, and the intersection equation holds on that catalog. -/
theorem C8_assignment_teacher_eligibility_witness :
    teacherList [⟨4, 2, "Física"⟩]
        [⟨"p1", "Denise", AdminRole.professor, some 2, [4]⟩] ⟨9, 2, "3B", [4]⟩ 4
      = [⟨"p1", "Denise", AdminRole.professor, some 2, [4]⟩].filter fun t =>
          decide (t.school_id = some (Classroom.mk 9 2 "3B" [4]).school_id)
            && t.teachable_subject_ids.contains 4 :=
  (C8_assignment_teacher_eligibility [⟨4, 2, "Física"⟩]
    [⟨"p1", "Denise", AdminRole.professor, some 2, [4]⟩] ⟨9, 2, "3B", [4]⟩ 4).2.1
    (by decide)

/-- C9 (amended).  The `reportFeedback` remote call is attempted exactly
when the event's trigger flag is unset, the prompt was not cancelled and
the trimmed reason has length at least 5; an already-flagged event and a
too-short reason are rejected with a status message, while a cancelled
prompt is rejected silently, with no status message and no remote
call. -/
theorem C9_report_guard (has_trigger : Bool) (promptResult : Option String) :
    ((handleReportFeedback has_trigger promptResult).1 = true
      ↔ has_trigger = false ∧ ∃ r, promptResult = some r ∧ 5 ≤ (trimStr r).length)
    ∧ (has_trigger = true →
        handleReportFeedback has_trigger promptResult
          = (false, some "Este feedback já está em análise."))
    ∧ (∀ r, has_trigger = false → promptResult = some r → (trimStr r).length < 5 →
        handleReportFeedback has_trigger promptResult
          = (false, some "Explique o motivo em pelo menos 5 caracteres."))
    ∧ (has_trigger = false → promptResult = none →
        handleReportFeedback has_trigger promptResult = (false, none)) := by
  unfold handleReportFeedback
  cases has_trigger with
  | true => simp
  | false =>
    cases promptResult with
    | none => simp
    | some r =>
      by_cases hl : (trimStr r).length < 5
      · simp [hl]
        try omega
      · simp [hl]
        try omega

/-- Closed instance of `C9_report_guard`: a two-character reason is
rejected with the minimum-length status message. -/
theorem C9_report_guard_witness :
    handleReportFeedback false (some "oi")
      = (false, some "Explique o motivo em pelo menos 5 caracteres.") :=
  (C9_report_guard false (some "oi")).2.2.1 "oi" rfl rfl (by decide)

/-- C9 counterexample.  A cancelled prompt on an unflagged event makes no
remote call but also sets no status message, so the claim's "otherwise
the report is rejected client-side with a status message" fails on the
cancellation path. -/
theorem C9_counterexample :
    (handleReportFeedback false none).1 = false
    ∧ (handleReportFeedback false none).2 = none :=
  ⟨rfl, rfl⟩

/-! ### (name, role, email) across the reduction -/

theorem bumpSent_info (u : UserAggregate) :
    (bumpSent u).name = u.name ∧ (bumpSent u).role = u.role
      ∧ (bumpSent u).email = u.email := by
  simp [bumpSent]

theorem bumpReceived_info (u : UserAggregate) (l : String) :
    (bumpReceived u l).name = u.name ∧ (bumpReceived u l).role = u.role
      ∧ (bumpReceived u l).email = u.email := by
  unfold bumpReceived
  by_cases h1 : l = "positivo" <;> by_cases h2 : l = "negativo" <;> simp [h1, h2]

theorem infoOf_touch (m : UserMap) (id : String) (n : Option String) (r : Option AdminRole)
    (em : Option String) (f : UserAggregate → UserAggregate) (uid : String)
    (hf : ∀ u, (f u).name = u.name ∧ (f u).role = u.role ∧ (f u).email = u.email) :
    infoOf (touch m id n r em f) uid
      = if id = uid then some (infoStep uid (infoOf m uid) ⟨n, r, em⟩)
        else infoOf m uid := by
  unfold infoOf
  rw [entry?_touch]
  by_cases h : id = uid
  · subst h
    rw [if_pos rfl, if_pos rfl]
    cases hu : entry? m id with
    | none =>
      obtain ⟨f1, f2, f3⟩ := hf (freshUA id n r em)
      simp only [Option.map]
      rw [f1, f2, f3]
      simp [freshUA, infoStep]
    | some u =>
      obtain ⟨f1, f2, f3⟩ := hf (enrichUA u n r em)
      simp only [Option.map]
      rw [f1, f2, f3]
      simp [enrichUA, infoStep]
  · rw [if_neg h, if_neg h]

theorem infoOf_processEvent (m : UserMap) (e : FeedbackEvent) (uid : String) :
    infoOf (processEvent m e) uid = infoFold uid (infoOf m uid) (eventMentions uid e) := by
  unfold processEvent eventMentions infoFold
  by_cases ht : e.target_type = TargetType.user
  · simp only [ht, if_pos]
    rw [infoOf_touch _ _ _ _ _ _ _ (fun u => bumpReceived_info u _),
      infoOf_touch _ _ _ _ _ _ _ bumpSent_info]
    by_cases hs : e.sender_id = uid <;> by_cases hti : e.target_id = uid <;>
      simp [hs, hti, ht]
  · simp only [ht, ite_false]
    rw [infoOf_touch _ _ _ _ _ _ _ bumpSent_info]
    by_cases hs : e.sender_id = uid <;> simp [hs, ht]

theorem infoOf_foldl (events : List FeedbackEvent) (uid : String) : ∀ m : UserMap,
    infoOf (events.foldl processEvent m) uid
      = infoFold uid (infoOf m uid) (mentionsOf uid events) := by
  induction events with
  | nil => intro m; simp [mentionsOf, infoFold]
  | cons e es ih =>
    intro m
    rw [List.foldl_cons, ih, infoOf_processEvent]
    unfold mentionsOf infoFold
    rw [List.flatMap_cons, List.foldl_append]

theorem infoStep_some_name (uid : String) (i : Info) (mn : Mention) :
    (infoStep uid (some i) mn).name
      = if i.name = "" ∧ jsTruthy mn.name? then mn.name?.getD i.name else i.name := rfl

theorem infoStep_some_role (uid : String) (i : Info) (mn : Mention) :
    (infoStep uid (some i) mn).role
      = match i.role with
        | none => mn.role?
        | some r => some r := rfl

theorem infoStep_some_email (uid : String) (i : Info) (mn : Mention) :
    (infoStep uid (some i) mn).email
      = if ¬ jsTruthy i.email ∧ jsTruthy mn.email? then mn.email? else i.email := rfl

/-- The (name, role, email) fold from an existing entry with a nonempty
name: the name is kept, the role is the stored one or else the first
mentioned one, the email is the stored one when truthy or else the first
truthy mentioned one (falling back to the stored value). -/
theorem infoFold_some (uid : String) : ∀ (ms : List Mention) (i : Info), i.name ≠ "" →
    infoFold uid (some i) ms
      = some ⟨i.name,
          orFirst i.role (ms.findSome? Mention.role?),
          if jsTruthy i.email then i.email
          else orFirst (firstTruthyEmail ms) i.email⟩ := by
  intro ms
  induction ms with
  | nil =>
    intro i hi
    obtain ⟨nm, ro, em⟩ := i
    simp [infoFold, firstTruthyEmail, orFirst]
    cases hje : jsTruthy em <;> cases ro <;> simp
  | cons mn ms ih =>
    intro i hi
    have hstep : infoFold uid (some i) (mn :: ms)
        = infoFold uid (some (infoStep uid (some i) mn)) ms := rfl
    have hname : (infoStep uid (some i) mn).name = i.name := by
      rw [infoStep_some_name]
      simp [hi]
    rw [hstep, ih _ (by rw [hname]; exact hi), hname]
    obtain ⟨nm, ro, em⟩ := i
    simp only [Option.some.injEq, Info.mk.injEq, true_and]
    refine ⟨?_, ?_⟩
    · rw [infoStep_some_role]
      cases hro : ro with
      | some r => simp [orFirst]
      | none =>
        cases hmr : mn.role? with
        | some r2 => simp [orFirst, hmr, List.findSome?_cons]
        | none => simp [orFirst, hmr, List.findSome?_cons]
    · by_cases he : jsTruthy em = true
      · have hE : (infoStep uid (some ⟨nm, ro, em⟩) mn).email = em := by
          rw [infoStep_some_email]
          exact if_neg fun hc => hc.1 he
        rw [hE]
        simp [he]
      · have hef : jsTruthy em = false := by
          cases hjs : jsTruthy em
          · rfl
          · exact absurd hjs he
        cases hmem : mn.email? with
        | none =>
          have hE : (infoStep uid (some ⟨nm, ro, em⟩) mn).email = em := by
            rw [infoStep_some_email]
            exact if_neg fun hc => absurd hc.2 (by rw [hmem]; simp [jsTruthy])
          have hfte : firstTruthyEmail (mn :: ms) = firstTruthyEmail ms := by
            unfold firstTruthyEmail
            simp [List.findSome?_cons, hmem, jsTruthy]
          rw [hE, hfte]
        | some str =>
          by_cases hs : str = ""
          · have hE : (infoStep uid (some ⟨nm, ro, em⟩) mn).email = em := by
              rw [infoStep_some_email]
              exact if_neg fun hc => absurd hc.2 (by rw [hmem]; simp [jsTruthy, hs])
            have hfte : firstTruthyEmail (mn :: ms) = firstTruthyEmail ms := by
              unfold firstTruthyEmail
              simp [List.findSome?_cons, hmem, hs, jsTruthy]
            rw [hE, hfte]
          · have hE : (infoStep uid (some ⟨nm, ro, em⟩) mn).email = some str := by
              rw [infoStep_some_email, hmem]
              exact if_pos ⟨he, by simp [jsTruthy, hs]⟩
            have hts : jsTruthy (some str) = true := by simp [jsTruthy, hs]
            have hfte : firstTruthyEmail (mn :: ms) = some str := by
              unfold firstTruthyEmail
              simp [List.findSome?_cons, hmem, hs, jsTruthy]
            rw [hE, if_pos hts, hfte]
            simp [hef, orFirst]

/-- The display name assigned at entry creation is never empty. -/
theorem nameOr_ne_empty (id : String) (n : Option String) : nameOr id n ≠ "" := by
  have hf : ("Usuário #" ++ id.take 6) ≠ "" := by
    intro h
    have h2 := congrArg String.length h
    rw [String.length_append, show ("Usuário #").length = 9 from rfl,
      show ("" : String).length = 0 from rfl] at h2
    omega
  unfold nameOr
  cases n with
  | none => exact hf
  | some str =>
    by_cases h : str = ""
    · simpa [h] using hf
    · simpa [h] using h

/-- C10 (amended).  An aggregate entry's identity fields are determined
by the ordered list of `ensureUser` mentions of its id: the display name
is fixed at creation — the first mention's name when truthy, otherwise
the `Usuário #`-prefixed fallback — and is never changed afterwards (in
particular never overwritten with a blank, and never replaced by a name
that only becomes available later); the role is the first non-null
mentioned role; the email is the first truthy mentioned email (falling
back to the first mention's value). -/
theorem C10_identity_enrichment (events : List FeedbackEvent) (uid : String)
    (m0 : Mention) (rest : List Mention)
    (h : mentionsOf uid events = m0 :: rest) :
    infoOf (aggregateMap events) uid
      = some ⟨nameOr uid m0.name?,
          List.findSome? Mention.role? (m0 :: rest),
          orFirst (firstTruthyEmail (m0 :: rest)) m0.email?⟩
    ∧ nameOr uid m0.name? ≠ "" := by
  have h1 : infoOf (aggregateMap events) uid = infoFold uid none (mentionsOf uid events) := by
    have h0 := infoOf_foldl events uid []
    unfold aggregateMap
    simpa [infoOf, entry?] using h0
  rw [h] at h1
  have h2 : infoFold uid none (m0 :: rest)
      = infoFold uid (some ⟨nameOr uid m0.name?, m0.role?, m0.email?⟩) rest := rfl
  rw [h2, infoFold_some uid rest _ (by simpa using nameOr_ne_empty uid m0.name?)] at h1
  refine ⟨?_, nameOr_ne_empty uid m0.name?⟩
  rw [h1]
  simp only [Option.some.injEq, Info.mk.injEq, true_and]
  refine ⟨?_, ?_⟩
  · cases hr : m0.role? <;> simp [orFirst, List.findSome?_cons, hr]
  · cases hm : m0.email? with
    | none => simp [jsTruthy, firstTruthyEmail, List.findSome?_cons, hm]
    | some str =>
      by_cases hs : str = "" <;>
        simp [jsTruthy, firstTruthyEmail, List.findSome?_cons, hm, hs, orFirst]

/-- Two communications from the same sender: the first carries no
directory fields, the second carries name, role and email. -/
def enrichScenarioEvents : List FeedbackEvent :=
  [ { sender_id := "u7", target_type := TargetType.classroom, target_id := "c1" }
  , { sender_id := "u7", sender_name := some "Alice",
      sender_role := some AdminRole.professor,
      sender_email := some "alice@escola.br",
      target_type := TargetType.classroom, target_id := "c1" } ]

/-- Closed instance of `C10_identity_enrichment` on
`enrichScenarioEvents`: the entry keeps the fallback name from its first,
nameless mention while picking up the later role and email. -/
theorem C10_identity_enrichment_witness :
    infoOf (aggregateMap enrichScenarioEvents) "u7"
      = some ⟨nameOr "u7" none,
          List.findSome? Mention.role?
            [⟨none, none, none⟩,
              ⟨some "Alice", some AdminRole.professor, some "alice@escola.br"⟩],
          orFirst (firstTruthyEmail
            [⟨none, none, none⟩,
              ⟨some "Alice", some AdminRole.professor, some "alice@escola.br"⟩]) none⟩
    ∧ nameOr "u7" (none : Option String) ≠ "" :=
  C10_identity_enrichment enrichScenarioEvents "u7" ⟨none, none, none⟩
    [⟨some "Alice", some AdminRole.professor, some "alice@escola.br"⟩] (by decide)

/-- C10 counterexample.  On `enrichScenarioEvents` the entry for `u7` is
synthesized with the fallback name at the first event and keeps it —
`Usuário #u7`, not `Alice` — even though the second event supplies the
real name (the role and email, by contrast, are enriched), so "once
name/role/email information becomes available for that identifier, the
entry is enriched with that name" fails for the name. -/
theorem C10_counterexample :
    infoOf (aggregateMap enrichScenarioEvents) "u7"
      = some ⟨"Usuário #u7", some AdminRole.professor, some "alice@escola.br"⟩
    ∧ "Usuário #u7" ≠ "Alice" :=
  ⟨by decide, by decide⟩

end InsightClass
